import Mathlib

/-!
Verification development for the `hupe1980/socks` Go library.

The definitions below are a shallow embedding of the library's protocol
codec (`socks.go`), of the SOCKS5 server handler (`handler.go`) and of the
bidirectional tunnel (`conn.go`).  The repository snapshot carries two
revisions of `socks.go`; the embedding follows the current one — the
revision whose declarations `handler.go` uses (`IdentFunc`, the
version-less message structs) and whose behaviour the current test file
exercises (`Socks4Response`/`Socks5Response` with endpoint encoding and
decoding) — not the stale copy whose response codecs drop the endpoint.
Go byte strings are modelled as `List Nat` (one entry per octet), Go
`[]byte` values likewise, machine integers as `Nat` with explicit `% 256`
where Go converts to `byte`, and fallible operations as `Option`-valued
functions (`none` models a non-nil Go `error`).

The first section models the parts of the Go standard library that the
codec calls: `net.SplitHostPort`, `strconv.ParseUint`, `net.ParseIP`
(Go ≥ 1.17 semantics: leading zeros in dotted-quad components are
rejected), `IP.To4`, `IP.To16`, `IP.String` (RFC 5952 output),
`net.JoinHostPort`, `strconv.Itoa` and `strings.Contains`.
-/

namespace Socks

/-- A Go string / byte slice: a list of octet values. -/
abbrev GoStr := List Nat

/-- Build a `GoStr` from an ASCII Lean string literal. -/
def gostr (s : String) : GoStr := s.data.map Char.toNat

/-- `binary.Read` of a fixed-size field: take exactly `n` octets from the
front of the buffer, failing (like `io.EOF` / `io.ErrUnexpectedEOF`) when
fewer are available. -/
def takeExact (n : Nat) (l : GoStr) : Option (GoStr × GoStr) :=
  if l.length < n then none else some (l.take n, l.drop n)

def decDigitsAux : Nat → Nat → GoStr
  | 0, _ => []
  | fuel + 1, n =>
    if n < 10 then [48 + n] else decDigitsAux fuel (n / 10) ++ [48 + n % 10]

/-- Decimal digits of a natural number, as ASCII octets (Go `uitoa`).
The fuel `n + 1` always suffices since the value shrinks tenfold per
digit. -/
def decDigits (n : Nat) : GoStr := decDigitsAux (n + 1) n

/-- Lowercase hexadecimal digit character for a value `0..15`. -/
def hexDigitChar (d : Nat) : Nat := if d < 10 then 48 + d else 87 + d

def hexDigitsAux : Nat → Nat → GoStr
  | 0, _ => []
  | fuel + 1, n =>
    if n < 16 then [hexDigitChar n]
    else hexDigitsAux fuel (n / 16) ++ [hexDigitChar (n % 16)]

/-- Lowercase hexadecimal digits of a natural number (Go `appendHex`). -/
def hexDigits (n : Nat) : GoStr := hexDigitsAux (n + 1) n

/-- Value of an ASCII decimal digit. -/
def digitVal (c : Nat) : Option Nat :=
  if 48 ≤ c ∧ c ≤ 57 then some (c - 48) else none

def decValueAux : GoStr → Nat → Option Nat
  | [], acc => some acc
  | c :: r, acc =>
    match digitVal c with
    | some d => decValueAux r (acc * 10 + d)
    | none => none

/-- `strconv.ParseUint(s, 10, ∞)` without the bit-size bound: `none` on an
empty string or any non-digit character. -/
def decValue (s : GoStr) : Option Nat :=
  if s = [] then none else decValueAux s 0

/-- Split a string around its last `':'` (Go finds the port after the last
colon).  `none` when no colon occurs. -/
def splitLastColon : GoStr → Option (GoStr × GoStr)
  | [] => none
  | c :: r =>
    match splitLastColon r with
    | some (p, q) => some (c :: p, q)
    | none => if c = 58 then some ([], r) else none

/-- Split a string around the first occurrence of octet `c`. -/
def splitFirst (c : Nat) : GoStr → Option (GoStr × GoStr)
  | [] => none
  | x :: r =>
    if x = c then some ([], r)
    else (splitFirst c r).map (fun pq => (x :: pq.1, pq.2))

/-- `net.SplitHostPort`: the port is everything after the last colon; a
host that contains a colon must be enclosed in square brackets, with the
closing bracket immediately before that colon; stray brackets anywhere
else are an error. -/
def goSplitHostPort (s : GoStr) : Option (GoStr × GoStr) :=
  match splitLastColon s with
  | none => none
  | some (pre, port) =>
    match s with
    | [] => none
    | c0 :: _ =>
      if c0 = 91 then
        match pre with
        | 91 :: hostBr =>
          match splitFirst 93 hostBr with
          | some (host, after) =>
            if after = [] ∧ ¬host.contains 91 ∧
                ¬port.contains 91 ∧ ¬port.contains 93 then
              some (host, port)
            else none
          | none => none
        | _ => none
      else
        if pre.contains 58 ∨ pre.contains 91 ∨ pre.contains 93 ∨
            port.contains 91 ∨ port.contains 93 then none
        else some (pre, port)

/-- `net.JoinHostPort`: bracket the host when it contains a colon. -/
def goJoinHostPort (host port : GoStr) : GoStr :=
  if host.contains 58 then 91 :: host ++ 93 :: 58 :: port
  else host ++ 58 :: port

/-- The 16-octet `net.IP` form of an IPv4 address (Go `v4InV6Prefix`). -/
def v4InV6 (a b c d : Nat) : GoStr :=
  [0, 0, 0, 0, 0, 0, 0, 0, 0, 0, 255, 255, a, b, c, d]

/-- One dotted-quad component: decimal, value ≤ 255, no leading zero
(Go ≥ 1.17 rejects `"010"`). -/
def parseV4Field (s : GoStr) : Option Nat :=
  match decValue s with
  | none => none
  | some v =>
    if v > 255 then none
    else
      match s with
      | 48 :: _ :: _ => none
      | _ => some v

/-- Split a byte string on every occurrence of octet `c`. -/
def splitOnByte (c : Nat) : GoStr → List GoStr
  | [] => [[]]
  | x :: r =>
    let ps := splitOnByte c r
    if x = c then [] :: ps
    else
      match ps with
      | p :: t => (x :: p) :: t
      | [] => [[x]]

/-- Go `parseIPv4`: exactly four valid dotted-quad components; the result
is the 16-octet v4-in-v6 `net.IP` that `net.IPv4` builds. -/
def goParseIPv4 (s : GoStr) : Option GoStr :=
  match (splitOnByte 46 s).mapM parseV4Field with
  | some [a, b, c, d] => some (v4InV6 a b c d)
  | _ => none

def hexVal (c : Nat) : Option Nat :=
  if 48 ≤ c ∧ c ≤ 57 then some (c - 48)
  else if 97 ≤ c ∧ c ≤ 102 then some (c - 87)
  else if 65 ≤ c ∧ c ≤ 70 then some (c - 55)
  else none

def xtoiAux : GoStr → Nat → Nat → Nat × Nat × Bool
  | [], n, i => if i = 0 then (0, 0, false) else (n, i, true)
  | c :: r, n, i =>
    match hexVal c with
    | none => if i = 0 then (0, 0, false) else (n, i, true)
    | some d =>
      let n' := n * 16 + d
      if n' ≥ 0xFFFFFF then (0, i, false) else xtoiAux r n' (i + 1)

/-- Go `xtoi`: parse a hexadecimal prefix, returning the value, the number
of characters consumed and a success flag. -/
def xtoi (s : GoStr) : Nat × Nat × Bool := xtoiAux s 0 0

/-- The chunk-parsing loop of Go `parseIPv6`.  `fuel` counts the remaining
loop iterations (the loop runs while `i < 16` and each iteration fills one
16-bit group, so 8 iterations); `acc` holds the bytes filled so far and
`ell` the byte position of a `::` ellipsis if one was seen.  Returns the
filled bytes and the ellipsis position; `none` models Go returning a nil
IP. -/
def p6loop : Nat → GoStr → GoStr → Option Nat → Option (GoStr × Option Nat)
  | 0, s, acc, ell => if s = [] then some (acc, ell) else none
  | fuel + 1, s, acc, ell =>
    let (n, c, ok) := xtoi s
    if ok = false ∨ n > 0xFFFF then none
    else if c < s.length ∧ s.get? c = some 46 then
      -- trailing dotted-quad group
      if ell = none ∧ acc.length ≠ 12 then none
      else if acc.length + 4 > 16 then none
      else
        match goParseIPv4 s with
        | none => none
        | some ip16 => some (acc ++ ip16.drop 12, ell)
    else
      let acc' := acc ++ [n / 256, n % 256]
      let rest := s.drop c
      if rest = [] then some (acc', ell)
      else
        match rest with
        | 58 :: rest' =>
          if rest' = [] then none
          else
            match rest' with
            | 58 :: rest'' =>
              if ell.isSome then none
              else if rest'' = [] then some (acc', some acc'.length)
              else p6loop fuel rest'' acc' (some acc'.length)
            | _ => p6loop fuel rest' acc' ell
        | _ => none

/-- Expansion step after the loop of Go `parseIPv6`: pad at the ellipsis
when fewer than 16 bytes were parsed, reject a redundant ellipsis
otherwise. -/
def p6finish : Option (GoStr × Option Nat) → Option GoStr
  | none => none
  | some (acc, ell) =>
    if acc.length < 16 then
      match ell with
      | none => none
      | some e => some (acc.take e ++ List.replicate (16 - acc.length) 0 ++ acc.drop e)
    else if ell.isSome then none
    else some acc

/-- Go `parseIPv6` (no zone support, as in `net.ParseIP`). -/
def goParseIPv6 (s : GoStr) : Option GoStr :=
  match s with
  | 58 :: 58 :: rest =>
    if rest = [] then some (List.replicate 16 0)
    else p6finish (p6loop 8 rest [] (some 0))
  | _ => p6finish (p6loop 8 s [] none)

/-- The dispatch scan of `net.ParseIP`: the first `'.'` or `':'` decides
between the IPv4 and the IPv6 parser; neither means not an IP literal. -/
def ipClass : GoStr → Option Bool
  | [] => none
  | c :: r =>
    if c = 46 then some true
    else if c = 58 then some false
    else ipClass r

/-- `net.ParseIP`. -/
def goParseIP (s : GoStr) : Option GoStr :=
  match ipClass s with
  | some true => goParseIPv4 s
  | some false => goParseIPv6 s
  | none => none

/-- `IP.To4`: a 4-octet IP as is, the tail of a v4-in-v6 16-octet IP,
otherwise nil. -/
def to4 (ip : GoStr) : Option GoStr :=
  if ip.length = 4 then some ip
  else if ip.length = 16 ∧ ip.take 12 = [0, 0, 0, 0, 0, 0, 0, 0, 0, 0, 255, 255] then
    some (ip.drop 12)
  else none

/-- `IP.To16`: a 4-octet IP is expanded to its v4-in-v6 form, a 16-octet
IP is returned as is, anything else is nil. -/
def to16 (ip : GoStr) : Option GoStr :=
  if ip.length = 4 then
    some (v4InV6 (ip.headD 0) ((ip.drop 1).headD 0) ((ip.drop 2).headD 0) ((ip.drop 3).headD 0))
  else if ip.length = 16 then some ip else none

/-- Dotted-quad printing of a 4-octet IP (Go `IP.String` v4 case). -/
def v4String (q : GoStr) : GoStr :=
  match q with
  | [a, b, c, d] =>
    decDigits a ++ 46 :: decDigits b ++ 46 :: decDigits c ++ 46 :: decDigits d
  | _ => []

/-- 16-bit groups of a 16-octet IPv6 address. -/
def toGroups : GoStr → List Nat
  | a :: b :: r => (a * 256 + b) :: toGroups r
  | _ => []

def countZeros : List Nat → Nat
  | 0 :: r => countZeros r + 1
  | _ => 0

/-- The zero-run scan of Go `IP.String`: find the earliest longest run of
zero groups (strict improvement keeps the earliest, indices jump past a
found run). -/
def bzrAux : Nat → List Nat → Nat → Option (Nat × Nat) → Option (Nat × Nat)
  | 0, _, _, best => best
  | fuel + 1, gsl, i, best =>
    match gsl with
    | [] => best
    | g :: r =>
      if g = 0 then
        let l := 1 + countZeros r
        let bl := match best with | none => 0 | some pr => pr.2
        let best' := if bl < l then some (i, l) else best
        bzrAux fuel (r.drop (l - 1)) (i + l) best'
      else bzrAux fuel r (i + 1) best

/-- Best zero run of the group list; discarded when it covers a single
group (RFC 5952: `::` must not shorten just one group). -/
def bestZeroRun (gs : List Nat) : Option (Nat × Nat) :=
  match bzrAux gs.length gs 0 none with
  | some (s, l) => if l ≥ 2 then some (s, l) else none
  | none => none

/-- RFC 5952 textual form of a 16-octet IPv6 address (Go `IP.String`
v6 case). -/
def ipv6String (ip16 : GoStr) : GoStr :=
  let gs := toGroups ip16
  match bestZeroRun gs with
  | none => List.intercalate [58] (gs.map hexDigits)
  | some (s, l) =>
    List.intercalate [58] ((gs.take s).map hexDigits) ++ 58 :: 58 ::
      List.intercalate [58] ((gs.drop (s + l)).map hexDigits)

/-- Go `hexString`: two lowercase hex digits per octet. -/
def hexString (l : GoStr) : GoStr :=
  (l.map (fun b => [hexDigitChar (b / 16 % 16), hexDigitChar (b % 16)])).join

/-- `IP.String`. -/
def ipString (ip : GoStr) : GoStr :=
  if ip = [] then gostr "<nil>"
  else
    match to4 ip with
    | some q => v4String q
    | none => if ip.length ≠ 16 then 63 :: hexString ip else ipv6String ip

/-- `strings.Contains sub s`: `sub` occurs contiguously in `s`. -/
def hasPref : GoStr → GoStr → Bool
  | [], _ => true
  | _ :: _, [] => false
  | a :: s, b :: t => a = b ∧ hasPref s t

def containsSub (s sub : GoStr) : Bool :=
  hasPref sub s ||
    match s with
    | [] => false
    | _ :: t => containsSub t sub

/-!
The protocol codec, translated from `socks.go` (the revision the package's
test suite exercises).  Enumerated Go constants keep their numeric wire
values; `uint8`-typed fields are modelled as `Nat` (a faithful Go value is
`< 256`).  `MarshalBinary` returns `Option GoStr` (`none` = non-nil
error); `UnmarshalBinary` returns `Option` of the decoded message.
-/

/-- `splitHostPort` of `socks.go`: `net.SplitHostPort`, then
`strconv.ParseUint(port, 10, 16)` (error above `0xffff` or on a non-digit),
then the explicit `1 > portnum || portnum > 0xffff` range check. -/
def splitHostPort (address : GoStr) : Option (GoStr × Nat) :=
  match goSplitHostPort address with
  | none => none
  | some (host, port) =>
    match decValue port with
    | none => none
    | some v =>
      if v > 0xffff then none
      else if 1 > v then none
      else some (host, v)

/-- The two big-endian octets of a 16-bit port value. -/
def b16 (n : Nat) : GoStr := [n / 256, n % 256]

structure Socks4Request where
  CMD : Nat
  Addr : GoStr
  UserID : GoStr
deriving DecidableEq, Repr

/-- `Socks4Request.MarshalBinary`: VN, CD, DSTPORT, then `ip.To4()` when
the host parses as an IP (nil — hence no octets — for a non-v4-mappable
IP), else the `0.0.0.1` marker; then USERID, NUL, and for a non-empty
domain the domain and a NUL. -/
def Socks4Request.marshalBinary (req : Socks4Request) : Option GoStr :=
  match splitHostPort req.Addr with
  | none => none
  | some (host, port) =>
    match goParseIP host with
    | some ip =>
      some ([4, req.CMD] ++ b16 port ++ ((to4 ip).getD []) ++ req.UserID ++ [0])
    | none =>
      some ([4, req.CMD] ++ b16 port ++ [0, 0, 0, 1] ++ req.UserID ++ [0] ++
        (if host = [] then [] else host ++ [0]))

structure Socks4Response where
  Status : Nat
  Addr : GoStr
deriving DecidableEq, Repr

/-- `Socks4Response.MarshalBinary`: `[0, status]`, then — only for a
non-empty endpoint — DSTPORT and `ParseIP(host).To4()` (no octets when
that is nil). -/
def Socks4Response.marshalBinary (resp : Socks4Response) : Option GoStr :=
  if resp.Addr = [] then some [0, resp.Status]
  else
    match splitHostPort resp.Addr with
    | none => none
    | some (host, port) =>
      some ([0, resp.Status] ++ b16 port ++ (((goParseIP host).bind to4).getD []))

/-- `Socks4Response.UnmarshalBinary`: drop the version octet, read the
status, and read DSTPORT/DSTIP only when more than two octets arrived
(the 2-octet short form is accepted). -/
def Socks4Response.unmarshalBinary (p : GoStr) : Option Socks4Response :=
  match p with
  | [] => none
  | _ :: rest =>
    match takeExact 1 rest with
    | none => none
    | some (st, rest2) =>
      let status := st.headD 0
      if p.length > 2 then
        match takeExact 2 rest2 with
        | none => none
        | some (pb, rest3) =>
          match takeExact 4 rest3 with
          | none => none
          | some (ipb, _) =>
            let portNum := pb.headD 0 * 256 + (pb.drop 1).headD 0
            some ⟨status, goJoinHostPort (ipString ipb) (decDigits portNum)⟩
      else some ⟨status, []⟩

structure UsernamePasswordAuthRequest where
  Username : GoStr
  Password : GoStr
deriving DecidableEq, Repr

/-- `UsernamePasswordAuthRequest.MarshalBinary`: version octet `0x01`,
then `byte(len(Username))` (truncating `% 256`), the username octets,
`byte(len(Password))` and the password octets.  Never errors. -/
def UsernamePasswordAuthRequest.marshalBinary (req : UsernamePasswordAuthRequest) :
    Option GoStr :=
  some ([1, req.Username.length % 256] ++ req.Username ++
    [req.Password.length % 256] ++ req.Password)

/-- `UsernamePasswordAuthRequest.UnmarshalBinary`. -/
def UsernamePasswordAuthRequest.unmarshalBinary (p : GoStr) :
    Option UsernamePasswordAuthRequest :=
  match takeExact 1 p with
  | none => none
  | some (v, r1) =>
    if v ≠ [1] then none
    else
      match takeExact 1 r1 with
      | none => none
      | some (l1, r2) =>
        match takeExact (l1.headD 0) r2 with
        | none => none
        | some (user, r3) =>
          match takeExact 1 r3 with
          | none => none
          | some (l2, r4) =>
            match takeExact (l2.headD 0) r4 with
            | none => none
            | some (pass, _) => some ⟨user, pass⟩

/-- `readAddr` of `socks.go`: ATYP octet, then 4 octets (IPv4) printed
with `IP.String`, 16 octets (IPv6) printed with `IP.String`, or a
length-prefixed FQDN; then the 2-octet port; the result is
`net.JoinHostPort(host, strconv.Itoa(port))`.  Returns the address and
the unread remainder. -/
def readAddr (r : GoStr) : Option (GoStr × GoStr) :=
  match takeExact 1 r with
  | none => none
  | some (at1, r1) =>
    let readHost : Option (GoStr × GoStr) :=
      if at1 = [1] then
        (takeExact 4 r1).map (fun pr => (ipString pr.1, pr.2))
      else if at1 = [4] then
        (takeExact 16 r1).map (fun pr => (ipString pr.1, pr.2))
      else if at1 = [3] then
        match takeExact 1 r1 with
        | none => none
        | some (lb, r2) => takeExact (lb.headD 0) r2
      else none
    match readHost with
    | none => none
    | some (host, r2) =>
      match takeExact 2 r2 with
      | none => none
      | some (pb, r3) =>
        let portNum := pb.headD 0 * 256 + (pb.drop 1).headD 0
        some (goJoinHostPort host (decDigits portNum), r3)

structure Socks5Request where
  CMD : Nat
  Addr : GoStr
deriving DecidableEq, Repr

/-- `Socks5Request.MarshalBinary`: VER CMD RSV, then ATYP and the address
octets — `To4` bytes, else `To16` bytes, else an error for an unparseable
IP; a non-IP host becomes a length-prefixed FQDN, rejected above 255
octets — then the port. -/
def Socks5Request.marshalBinary (req : Socks5Request) : Option GoStr :=
  match splitHostPort req.Addr with
  | none => none
  | some (host, port) =>
    match goParseIP host with
    | some ip =>
      match to4 ip with
      | some ip4 => some ([5, req.CMD, 0, 1] ++ ip4 ++ b16 port)
      | none =>
        match to16 ip with
        | some ip16 => some ([5, req.CMD, 0, 4] ++ ip16 ++ b16 port)
        | none => none
    | none =>
      if host.length > 255 then none
      else some ([5, req.CMD, 0, 3, host.length] ++ host ++ b16 port)

/-- `Socks5Request.UnmarshalBinary`: version check, CMD, reserved octet,
then `readAddr`. -/
def Socks5Request.unmarshalBinary (p : GoStr) : Option Socks5Request :=
  match takeExact 1 p with
  | none => none
  | some (v, r1) =>
    if v ≠ [5] then none
    else
      match takeExact 1 r1 with
      | none => none
      | some (cb, r2) =>
        match takeExact 1 r2 with
        | none => none
        | some (_, r3) =>
          match readAddr r3 with
          | none => none
          | some (addr, _) => some ⟨cb.headD 0, addr⟩

structure Socks5Response where
  Status : Nat
  Addr : GoStr
deriving DecidableEq, Repr

/-- `Socks5Response.MarshalBinary`: VER REP RSV; a non-empty endpoint adds
ATYP and the `To4`/`To16` octets (nothing at all when `ParseIP` failed)
and the port. -/
def Socks5Response.marshalBinary (resp : Socks5Response) : Option GoStr :=
  if resp.Addr = [] then some [5, resp.Status, 0]
  else
    match splitHostPort resp.Addr with
    | none => none
    | some (host, port) =>
      let ipPart : GoStr :=
        match goParseIP host with
        | some ip =>
          match to4 ip with
          | some ip4 => 1 :: ip4
          | none =>
            match to16 ip with
            | some ip16 => 4 :: ip16
            | none => []
        | none => []
      some ([5, resp.Status, 0] ++ ipPart ++ b16 port)

/-- `Socks5Response.UnmarshalBinary`: version check, status, a reserved
octet whose read error is ignored, then `readAddr` only when more than
three octets arrived (the 3-octet short form is accepted). -/
def Socks5Response.unmarshalBinary (p : GoStr) : Option Socks5Response :=
  match p with
  | [] => none
  | v :: rest =>
    if v ≠ 5 then none
    else
      match takeExact 1 rest with
      | none => none
      | some (st, rest2) =>
        let rest3 := rest2.drop 1
        if p.length > 3 then
          match readAddr rest3 with
          | none => none
          | some (addr, _) => some ⟨st.headD 0, addr⟩
        else some ⟨st.headD 0, []⟩

/-!
Server-side handler logic, translated from `handler.go`, and the tunnel
loop of `conn.go`.  I/O is abstracted: reads and writes on the framed
channel are assumed to succeed, and the dial outcome is a parameter.
-/

/-- The inner loop of `socks5Handler.selectAuthMethod`: scan the server's
configured methods for `dm`. -/
def methodInServer (dm : Nat) : List Nat → Bool
  | [] => false
  | sm :: r => if dm = sm then true else methodInServer dm r

/-- `socks5Handler.selectAuthMethod`: the first client-offered method
present in the server's configured list, else `0xff`
(`AuthMethodNoAcceptableMethods`). -/
def selectAuthMethod (serverMethods : List Nat) : List Nat → Nat
  | [] => 255
  | dm :: rest =>
    if methodInServer dm serverMethods then dm
    else selectAuthMethod serverMethods rest

/-- The greeting phase of `socks5Handler.handle` (lines 147–169): select a
method from the client's offer, write the `MethodSelectResponse` carrying
it, and fail the handshake when it is `0xff`.  Returns the method written
and whether the handshake continues. -/
def socks5Greet (serverMethods clientMethods : List Nat) : Nat × Bool :=
  let m := selectAuthMethod serverMethods clientMethods
  (m, !(m = 255 : Bool))

/-- The status-mapping of `socks5Handler.handleConnect` on a dial error:
message contains "refused" → `ConnectionRefused` (5); else contains
"network is unreachable" → `NetworkUnreaachable` (3); else
`HostUnreachable` (4). -/
def socks5DialErrStatus (msg : GoStr) : Nat :=
  if containsSub msg (gostr "refused") then 5
  else if containsSub msg (gostr "network is unreachable") then 3
  else 4

/-- The dial-failure path of `socks5Handler.handleConnect` (lines
207–228), assuming the error reply is written successfully: the reply
written (status from the error message, no endpoint) and the handler's
return value (the dial error itself). -/
def socks5HandleConnectDialFailure (errMsg : GoStr) : Socks5Response × GoStr :=
  (⟨socks5DialErrStatus errMsg, []⟩, errMsg)

/-- `Conn.Tunnel` (conn.go lines 63–77): both `proxy` goroutines send
their `io.Copy` result (`none` = EOF) on a 2-buffered channel; the loop
receives up to two results and returns the first non-nil one
immediately.  `e1`, `e2` are the two copy results in arrival order; the
returned pair is Tunnel's result and how many channel receives the loop
performed before returning. -/
def connTunnel (e1 e2 : Option Nat) : Option Nat × Nat :=
  match e1 with
  | some err => (some err, 1)
  | none =>
    match e2 with
    | some err => (some err, 2)
    | none => (none, 2)

/-- A host string is in canonical form when, if it parses as an IP, it is
exactly the text `IP.String` prints for that IP; a non-IP host merely has
to fit in the 255-octet FQDN length bound.  This is the class of hosts for
which the SOCKS5 address codec round-trips. -/
def canonHostB (host : GoStr) : Bool :=
  match goParseIP host with
  | some ip => ipString ip == host
  | none => decide (host.length ≤ 255)

/-!
Helper lemmas about the embedded definitions.
-/

theorem takeExact_eq_of_length (l r : GoStr) : takeExact l.length (l ++ r) = some (l, r) := by
  unfold takeExact
  rw [if_neg (by simp)]
  simp [List.take_left, List.drop_left]

theorem takeExact_cons (x : Nat) (l : GoStr) : takeExact 1 (x :: l) = some ([x], l) :=
  takeExact_eq_of_length [x] l

theorem to4_length {ip q : GoStr} (h : to4 ip = some q) : q.length = 4 := by
  unfold to4 at h
  split_ifs at h with h1 h2
  · cases h; omega
  · cases h; simp [List.length_drop, h2.1]

theorem to4_of_len4 {q : GoStr} (h : q.length = 4) : to4 q = some q := by
  simp [to4, h]

theorem to4_none_len_ne4 {ip : GoStr} (h : to4 ip = none) : ip.length ≠ 4 := by
  intro h4
  simp [to4, h4] at h

theorem to16_of_len16 {ip : GoStr} (h : ip.length = 16) : to16 ip = some ip := by
  simp [to16, h]

theorem to16_length {ip w : GoStr} (h : to16 ip = some w) : w.length = 16 := by
  unfold to16 at h
  split_ifs at h with h1 h2
  · cases h; simp [v4InV6]
  · cases h; exact h2

theorem ipString_of_to4 {ip q : GoStr} (h : to4 ip = some q) : ipString ip = v4String q := by
  have hne : ip ≠ [] := by
    rintro rfl
    simp [to4] at h
  simp [ipString, hne, h]

theorem splitHostPort_bounds {a h : GoStr} {n : Nat}
    (hs : splitHostPort a = some (h, n)) : 1 ≤ n ∧ n ≤ 65535 := by
  unfold splitHostPort at hs
  rcases hsp : goSplitHostPort a with _ | ⟨host, port⟩ <;> simp only [hsp] at hs
  · cases hs
  · rcases hdv : decValue port with _ | v <;> simp only [hdv] at hs
    · cases hs
    · split_ifs at hs with h1 h2
      cases hs
      omega

theorem goSplitHostPort_ne_nil {a : GoStr} {x : GoStr × GoStr}
    (hs : goSplitHostPort a = some x) : a ≠ [] := by
  rintro rfl
  simp [goSplitHostPort, splitLastColon] at hs

theorem b16_reconstruct (n : Nat) :
    (b16 n).headD 0 * 256 + ((b16 n).drop 1).headD 0 = n := by
  have := Nat.div_add_mod n 256
  simp [b16]
  omega

theorem hexDigitChar_ne_sep (d : Nat) : hexDigitChar d ≠ 46 ∧ hexDigitChar d ≠ 58 := by
  unfold hexDigitChar
  split_ifs <;> omega

theorem hexString_sep_free {c : Nat} {l : GoStr} (h : c ∈ hexString l) :
    c ≠ 46 ∧ c ≠ 58 := by
  simp only [hexString, List.mem_join, List.mem_map] at h
  obtain ⟨sub, ⟨b, _, rfl⟩, hc⟩ := h
  simp only [List.mem_cons, List.mem_singleton, List.not_mem_nil, or_false] at hc
  rcases hc with rfl | rfl
  · exact hexDigitChar_ne_sep _
  · exact hexDigitChar_ne_sep _

theorem ipClass_eq_none {s : GoStr} (h : ∀ c ∈ s, c ≠ 46 ∧ c ≠ 58) :
    ipClass s = none := by
  induction s with
  | nil => rfl
  | cons c r ih =>
    have hc := h c (by simp)
    simp [ipClass, hc.1, hc.2]
    exact ih fun x hx => h x (by simp [hx])

theorem ip_len16_of_parse_canon {host ip : GoStr} (hp : goParseIP host = some ip)
    (hc : ipString ip = host) (h4 : to4 ip = none) : ip.length = 16 := by
  by_contra hlen
  have hbad : ∀ c ∈ host, c ≠ 46 ∧ c ≠ 58 := by
    by_cases hnil : ip = []
    · subst hnil
      simp [ipString] at hc
      subst hc
      decide
    · have : ipString ip = 63 :: hexString ip := by
        simp [ipString, hnil, h4, hlen]
      rw [this] at hc
      subst hc
      intro c hmem
      rcases List.mem_cons.mp hmem with rfl | hmem
      · omega
      · exact hexString_sep_free hmem
  have hclass := ipClass_eq_none hbad
  simp [goParseIP, hclass] at hp

theorem methodInServer_iff {dm : Nat} {l : List Nat} :
    methodInServer dm l = true ↔ dm ∈ l := by
  induction l with
  | nil => simp [methodInServer]
  | cons sm r ih =>
    by_cases h : dm = sm <;> simp [methodInServer, h, ih]

theorem takeExact_exact {n : Nat} {l : GoStr} (h : l.length = n) :
    takeExact n l = some (l, []) := by
  subst h
  simpa using takeExact_eq_of_length l []

theorem b16_length (n : Nat) : (b16 n).length = 2 := rfl

theorem takeExact_of_length_eq {n : Nat} (l r : GoStr) (h : l.length = n) :
    takeExact n (l ++ r) = some (l, r) := by
  subst h
  exact takeExact_eq_of_length l r

theorem readAddr_ipv4 (q : GoStr) (n : Nat) (hq : q.length = 4) :
    readAddr (1 :: (q ++ b16 n)) = some (goJoinHostPort (ipString q) (decDigits n), []) := by
  unfold readAddr
  simp [takeExact_cons, takeExact_of_length_eq q (b16 n) hq,
    takeExact_exact (b16_length n)]
  simp [b16]
  rw [show n / 256 * 256 + n % 256 = n from by omega]

theorem readAddr_ipv6 (w : GoStr) (n : Nat) (hw : w.length = 16) :
    readAddr (4 :: (w ++ b16 n)) = some (goJoinHostPort (ipString w) (decDigits n), []) := by
  unfold readAddr
  simp [takeExact_cons, takeExact_of_length_eq w (b16 n) hw,
    takeExact_exact (b16_length n)]
  simp [b16]
  rw [show n / 256 * 256 + n % 256 = n from by omega]

theorem readAddr_fqdn (host : GoStr) (n : Nat) :
    readAddr (3 :: host.length :: (host ++ b16 n)) =
      some (goJoinHostPort host (decDigits n), []) := by
  unfold readAddr
  simp [takeExact_cons, takeExact_of_length_eq host (b16 n) rfl,
    takeExact_exact (b16_length n)]
  simp [b16]
  rw [show n / 256 * 256 + n % 256 = n from by omega]

/-!
The claims.
-/

/-- C5 (counterexample): `Conn.Tunnel` does not await both copy tasks when
the first one fails: when the first received copy result is an error, the
loop returns after a single channel receive, not two. -/
theorem connTunnel_returns_before_second_copy :
    connTunnel (some 3) none = (some 3, 1) ∧ (1 : Nat) ≠ 2 := by
  exact ⟨rfl, by decide⟩

/-- C5 (amended): `Conn.Tunnel` returns success (nil) after receiving both
copy results when both copies ended with EOF; otherwise it returns the
first non-EOF error in arrival order — immediately, after a single
receive, when that error is the first result (the 2-buffered channel keeps
the remaining copy task from leaking, but it is not awaited). -/
theorem connTunnel_first_error_or_nil :
    connTunnel none none = (none, 2)
    ∧ (∀ e : Nat, connTunnel none (some e) = (some e, 2))
    ∧ (∀ (e : Nat) (e2 : Option Nat), connTunnel (some e) e2 = (some e, 1)) :=
  ⟨rfl, fun _ => rfl, fun _ _ => rfl⟩

/-- C6: the SOCKS5 server selects the first method in client-offered order
that appears in its configured set (`List.find?` over the client's list);
with no overlap it selects `0xff`, writes that reply, and the handshake
does not continue. -/
theorem selectAuthMethod_first_match :
    (∀ server client : List Nat,
      selectAuthMethod server client = (client.find? (fun m => methodInServer m server)).getD 255)
    ∧ (∀ server client : List Nat, (∀ m ∈ client, m ∉ server) →
      socks5Greet server client = (255, false)) := by
  have hchar : ∀ server client : List Nat,
      selectAuthMethod server client = (client.find? (fun m => methodInServer m server)).getD 255 := by
    intro server client
    induction client with
    | nil => rfl
    | cons dm rest ih =>
      cases h : methodInServer dm server <;>
        simp [selectAuthMethod, List.find?, h, ih]
  refine ⟨hchar, fun server client hno => ?_⟩
  have hfind : client.find? (fun m => methodInServer m server) = none := by
    rw [List.find?_eq_none]
    intro m hm
    simpa [methodInServer_iff] using hno m hm
  simp [socks5Greet, hchar, hfind]

/-- C6 (witness): a client offering methods 5 and 2 to a server supporting
only 0 gets the `0xff` reply and the handshake stops. -/
theorem selectAuthMethod_first_match_witness :
    socks5Greet [0] [5, 2] = (255, false) :=
  selectAuthMethod_first_match.2 [0] [5, 2] (by decide)

/-- C7: on a failed CONNECT dial the handler replies with a status mapped
from the error text — containing "refused" gives `ConnectionRefused` (5),
otherwise containing "network is unreachable" gives
`NetworkUnreaachable` (3), anything else gives `HostUnreachable` (4) —
with no bound endpoint, and returns the dial error itself. -/
theorem socks5HandleConnect_dial_error_mapping (msg : GoStr) :
    (socks5HandleConnectDialFailure msg).2 = msg
    ∧ (socks5HandleConnectDialFailure msg).1.Addr = []
    ∧ (containsSub msg (gostr "refused") = true →
        (socks5HandleConnectDialFailure msg).1.Status = 5)
    ∧ (containsSub msg (gostr "refused") = false →
        containsSub msg (gostr "network is unreachable") = true →
        (socks5HandleConnectDialFailure msg).1.Status = 3)
    ∧ (containsSub msg (gostr "refused") = false →
        containsSub msg (gostr "network is unreachable") = false →
        (socks5HandleConnectDialFailure msg).1.Status = 4) := by
  refine ⟨rfl, rfl, ?_, ?_, ?_⟩ <;>
    intros <;>
    simp [socks5HandleConnectDialFailure, socks5DialErrStatus, *]

/-- C7 (witness): the three status mappings on concrete dial-error
messages. -/
theorem socks5HandleConnect_dial_error_mapping_witness :
    (socks5HandleConnectDialFailure (gostr "connect: connection refused")).1.Status = 5
    ∧ (socks5HandleConnectDialFailure (gostr "connect: network is unreachable")).1.Status = 3
    ∧ (socks5HandleConnectDialFailure (gostr "i/o timeout")).1.Status = 4 :=
  ⟨(socks5HandleConnect_dial_error_mapping _).2.2.1 (by decide),
   (socks5HandleConnect_dial_error_mapping _).2.2.2.1 (by decide) (by decide),
   (socks5HandleConnect_dial_error_mapping _).2.2.2.2 (by decide) (by decide)⟩

set_option maxRecDepth 100000 in
/-- C10: `UsernamePasswordAuthRequest.MarshalBinary` never fails, its
length octets are `len % 256`, and a 256-octet username therefore encodes
a frame that no longer round-trips through `UnmarshalBinary`. -/
theorem upAuthRequest_marshal_total_but_truncating :
    (∀ req : UsernamePasswordAuthRequest, ∃ b,
      UsernamePasswordAuthRequest.marshalBinary req = some b
      ∧ b.get? 1 = some (req.Username.length % 256)
      ∧ b.get? (req.Username.length + 2) = some (req.Password.length % 256))
    ∧ ((UsernamePasswordAuthRequest.marshalBinary ⟨List.replicate 256 97, [98]⟩).bind
        UsernamePasswordAuthRequest.unmarshalBinary
        ≠ some ⟨List.replicate 256 97, [98]⟩) := by
  constructor
  · intro req
    refine ⟨_, rfl, rfl, ?_⟩
    have h2 : [1, req.Username.length % 256] ++ req.Username ++
        [req.Password.length % 256] ++ req.Password
        = ([1, req.Username.length % 256] ++ req.Username) ++
          ([req.Password.length % 256] ++ req.Password) := by
      simp
    rw [h2, List.get?_append_right (by simp)]
    have h3 : req.Username.length + 2 -
        ([1, req.Username.length % 256] ++ req.Username).length = 0 := by
      simp
    rw [h3]
    rfl
  · decide

section
set_option maxRecDepth 4000

/-- C4 (counterexample): for the IPv6 literal destination `[::1]:8080` the
SOCKS4 encoder emits neither the `0.0.0.1` marker nor a trailing DOMAIN:
`ParseIP` succeeds, `To4` is nil, and no DSTIP octets at all are written. -/
theorem socks4Request_ipv6_no_marker :
    Socks4Request.marshalBinary ⟨1, gostr "[::1]:8080", []⟩ = some [4, 1, 31, 144, 0]
    ∧ (([4, 1, 31, 144, 0] : GoStr).drop 4).take 4 ≠ [0, 0, 0, 1] := by
  decide

end

/-- C4 (amended): for every destination whose non-empty host is not
parseable as an IP literal at all (so in particular not for IPv6
literals), the SOCKS4 encoder emits DSTIP = 0.0.0.1 at offsets 4..7 and
appends the host as a NUL-terminated DOMAIN after the user-id
terminator. -/
theorem socks4Request_marshal_socks4a (cmd n : Nat) (host userID addr : GoStr)
    (hsplit : splitHostPort addr = some (host, n))
    (hip : goParseIP host = none) (hne : host ≠ []) :
    Socks4Request.marshalBinary ⟨cmd, addr, userID⟩ =
      some ([4, cmd] ++ b16 n ++ [0, 0, 0, 1] ++ userID ++ [0] ++ host ++ [0])
    ∧ (([4, cmd] ++ b16 n ++ [0, 0, 0, 1] ++ userID ++ [0] ++ host ++ [0]).drop 4).take 4
      = [0, 0, 0, 1] := by
  constructor
  · simp [Socks4Request.marshalBinary, hsplit, hip, hne]
  · simp [b16]

/-- C4 (witness): the amended statement at `localhost:8080` with user-id
`xyz`. -/
theorem socks4Request_marshal_socks4a_witness :
    Socks4Request.marshalBinary ⟨1, gostr "localhost:8080", gostr "xyz"⟩ =
      some ([4, 1] ++ b16 8080 ++ [0, 0, 0, 1] ++ gostr "xyz" ++ [0] ++ gostr "localhost" ++ [0])
    ∧ (([4, 1] ++ b16 8080 ++ [0, 0, 0, 1] ++ gostr "xyz" ++ [0] ++ gostr "localhost" ++ [0]).drop 4).take 4
      = [0, 0, 0, 1] :=
  socks4Request_marshal_socks4a 1 8080 (gostr "localhost") (gostr "xyz") _
    (by decide) (by decide) (by decide)

/-- C9: for an address whose port part is not a decimal in 1..65535 —
port 0, a value above 65535, or a non-numeric string — every
endpoint-carrying encoder (`Socks4Request`, `Socks5Request`,
`Socks5Response` with endpoint) fails and produces no bytes, while a
decimal port in 1..65535 passes the `splitHostPort` check. -/
theorem marshal_fails_on_bad_port (addr host pstr : GoStr)
    (hs : goSplitHostPort addr = some (host, pstr)) :
    ((decValue pstr = none ∨ decValue pstr = some 0 ∨
        (∃ v, decValue pstr = some v ∧ v > 65535)) →
      splitHostPort addr = none
      ∧ (∀ cmd uid, Socks4Request.marshalBinary ⟨cmd, addr, uid⟩ = none)
      ∧ (∀ cmd, Socks5Request.marshalBinary ⟨cmd, addr⟩ = none)
      ∧ (∀ st, Socks5Response.marshalBinary ⟨st, addr⟩ = none))
    ∧ (∀ v, decValue pstr = some v → 1 ≤ v → v ≤ 65535 →
        splitHostPort addr = some (host, v)) := by
  have hnil := goSplitHostPort_ne_nil hs
  constructor
  · intro hbad
    have hsp : splitHostPort addr = none := by
      unfold splitHostPort
      simp only [hs]
      rcases hbad with h | h | ⟨v, hv, hgt⟩
      · simp [h]
      · simp [h]
      · simp [hv, hgt]
    exact ⟨hsp,
      fun cmd uid => by simp [Socks4Request.marshalBinary, hsp],
      fun cmd => by simp [Socks5Request.marshalBinary, hsp],
      fun st => by simp [Socks5Response.marshalBinary, hsp, hnil]⟩
  · intro v hv h1 h2
    unfold splitHostPort
    simp only [hs, hv]
    rw [if_neg (by omega), if_neg (by omega)]

/-- C2: the two `Socks4Response` round-trips from the test suite —
`{Granted, empty}` through the 2-octet short form and
`{Granted, 127.0.0.1:5566}` through the 8-octet full form — and the
decoder accepts any 2-octet short frame and any 8-octet full frame,
recovering the same status from either. -/
theorem socks4Response_roundtrip_and_short_forms :
    ((Socks4Response.marshalBinary ⟨0x5a, []⟩).bind Socks4Response.unmarshalBinary
      = some ⟨0x5a, []⟩)
    ∧ ((Socks4Response.marshalBinary ⟨0x5a, gostr "127.0.0.1:5566"⟩).bind
        Socks4Response.unmarshalBinary = some ⟨0x5a, gostr "127.0.0.1:5566"⟩)
    ∧ (∀ s : Nat, Socks4Response.unmarshalBinary [0, s] = some ⟨s, []⟩)
    ∧ (∀ s p1 p2 a b c d : Nat,
        Socks4Response.unmarshalBinary [0, s, p1, p2, a, b, c, d]
          = some ⟨s, goJoinHostPort (ipString [a, b, c, d])
              (decDigits (p1 * 256 + p2))⟩) := by
  refine ⟨by decide, by decide, ?_, ?_⟩
  · intro s
    simp [Socks4Response.unmarshalBinary, takeExact]
  · intro s p1 p2 a b c d
    simp [Socks4Response.unmarshalBinary, takeExact]

/-- C3 (counterexample): the claimed round-trip fails for the IPv6 literal
destination written non-canonically: `[0:0:0:0:0:0:0:1]:8080` (an IPv6
literal host, port 8080) decodes back as `[::1]:8080`, not the original
address. -/
theorem socks5Request_noncanonical_ipv6_not_roundtrip :
    (Socks5Request.marshalBinary ⟨1, gostr "[0:0:0:0:0:0:0:1]:8080"⟩).bind
        Socks5Request.unmarshalBinary
      = some ⟨1, gostr "[::1]:8080"⟩
    ∧ gostr "[::1]:8080" ≠ gostr "[0:0:0:0:0:0:0:1]:8080" := by
  constructor
  · decide
  · decide

/-- C3 (amended): for every `Socks5Request` whose address splits into a
canonical-form host (an IP literal written exactly as `IP.String` prints
it — canonical dotted quad, or canonical RFC 5952 IPv6 that is not
IPv4-mapped — or a non-IP DNS name of at most 255 octets) and a port in
1..65535, decoding the encoding restores the request, and the ATYP octet
is IPv4 (1), IPv6 (4) or FQDN (3) according to the `ParseIP`/`To4`
classification of the host. -/
theorem socks5Request_roundtrip_canonical (cmd n : Nat) (host addr : GoStr)
    (hsplit : splitHostPort addr = some (host, n))
    (hcanon : canonHostB host = true)
    (hjoin : goJoinHostPort host (decDigits n) = addr) :
    ∃ b, Socks5Request.marshalBinary ⟨cmd, addr⟩ = some b
      ∧ Socks5Request.unmarshalBinary b = some ⟨cmd, addr⟩
      ∧ b.get? 3 = some (match goParseIP host with
          | some ip => match to4 ip with
            | some _ => 1
            | none => 4
          | none => 3) := by
  rcases hip : goParseIP host with _ | ip
  · -- FQDN branch
    have hlen : host.length ≤ 255 := by
      simpa [canonHostB, hip] using hcanon
    refine ⟨[5, cmd, 0, 3, host.length] ++ host ++ b16 n, ?_, ?_, ?_⟩
    · simp only [Socks5Request.marshalBinary, hsplit, hip]
      rw [if_neg (by omega)]
    · show Socks5Request.unmarshalBinary
        (5 :: cmd :: 0 :: 3 :: host.length :: (host ++ b16 n)) = _
      unfold Socks5Request.unmarshalBinary
      simp [takeExact_cons, readAddr_fqdn host n, hjoin]
    · simp [hip]
  · have hcan : ipString ip = host := by
      simpa [canonHostB, hip] using hcanon
    rcases h4 : to4 ip with _ | q
    · -- IPv6 branch
      have hlen16 : ip.length = 16 := ip_len16_of_parse_canon hip hcan h4
      have h16 : to16 ip = some ip := to16_of_len16 hlen16
      refine ⟨[5, cmd, 0, 4] ++ ip ++ b16 n, ?_, ?_, ?_⟩
      · simp only [Socks5Request.marshalBinary, hsplit, hip, h4, h16]
      · show Socks5Request.unmarshalBinary
          (5 :: cmd :: 0 :: (4 :: (ip ++ b16 n))) = _
        unfold Socks5Request.unmarshalBinary
        simp [takeExact_cons, readAddr_ipv6 ip n hlen16, hcan, hjoin]
      · simp [hip, h4]
    · -- IPv4 branch
      have hq4 : q.length = 4 := to4_length h4
      have hipq : ipString q = v4String q := ipString_of_to4 (to4_of_len4 hq4)
      have hipip : ipString ip = v4String q := ipString_of_to4 h4
      refine ⟨[5, cmd, 0, 1] ++ q ++ b16 n, ?_, ?_, ?_⟩
      · simp only [Socks5Request.marshalBinary, hsplit, hip, h4]
      · show Socks5Request.unmarshalBinary
          (5 :: cmd :: 0 :: (1 :: (q ++ b16 n))) = _
        unfold Socks5Request.unmarshalBinary
        simp [takeExact_cons, readAddr_ipv4 q n hq4, hipq, ← hipip, hcan, hjoin]
      · simp [hip, h4]

/-- C3 (witness): the three canonical destinations of the test suite —
`127.0.0.1:8080` (ATYP IPv4), `[::1]:8080` (ATYP IPv6) and
`localhost:8080` (ATYP FQDN) — round-trip. -/
theorem socks5Request_roundtrip_canonical_witness :
    (∃ b, Socks5Request.marshalBinary ⟨1, gostr "127.0.0.1:8080"⟩ = some b
      ∧ Socks5Request.unmarshalBinary b = some ⟨1, gostr "127.0.0.1:8080"⟩
      ∧ b.get? 3 = some 1)
    ∧ (∃ b, Socks5Request.marshalBinary ⟨1, gostr "[::1]:8080"⟩ = some b
      ∧ Socks5Request.unmarshalBinary b = some ⟨1, gostr "[::1]:8080"⟩
      ∧ b.get? 3 = some 4)
    ∧ (∃ b, Socks5Request.marshalBinary ⟨1, gostr "localhost:8080"⟩ = some b
      ∧ Socks5Request.unmarshalBinary b = some ⟨1, gostr "localhost:8080"⟩
      ∧ b.get? 3 = some 3) :=
  ⟨socks5Request_roundtrip_canonical 1 8080 (gostr "127.0.0.1") _
      (by decide) (by decide) (by decide),
   socks5Request_roundtrip_canonical 1 8080 (gostr "::1") _
      (by decide) (by decide) (by decide),
   socks5Request_roundtrip_canonical 1 8080 (gostr "localhost") _
      (by decide) (by decide) (by decide)⟩

/-- C1 (counterexample): the claimed round-trip does not hold for every
`Socks5Response`: `{Granted, localhost:8080}` encodes (with no ATYP and no
address octets, only the port), and decoding those bytes fails, so
`decode(encode(M))` is not `M`. -/
theorem socks5Response_non_ip_endpoint_not_roundtrip :
    Socks5Response.marshalBinary ⟨0, gostr "localhost:8080"⟩ = some [5, 0, 0, 31, 144]
    ∧ (Socks5Response.marshalBinary ⟨0, gostr "localhost:8080"⟩).bind
        Socks5Response.unmarshalBinary = none := by
  constructor
  · decide
  · decide

/-- C1 (amended): for every `Socks5Response` whose endpoint is empty
(3-octet short form) or has a canonical-form IP-literal host and a port in
1..65535, decoding the encoding restores the response, status and —
when present — endpoint included. -/
theorem socks5Response_roundtrip_canonical (status : Nat) (addr : GoStr)
    (h : addr = [] ∨ ∃ host n ip, splitHostPort addr = some (host, n)
      ∧ goParseIP host = some ip ∧ ipString ip = host
      ∧ goJoinHostPort host (decDigits n) = addr) :
    ∃ b, Socks5Response.marshalBinary ⟨status, addr⟩ = some b
      ∧ Socks5Response.unmarshalBinary b = some ⟨status, addr⟩ := by
  rcases h with rfl | ⟨host, n, ip, hsplit, hip, hcan, hjoin⟩
  · exact ⟨[5, status, 0], rfl, by simp [Socks5Response.unmarshalBinary, takeExact_cons]⟩
  · have hne : addr ≠ [] := by
      rintro rfl
      simp [splitHostPort, goSplitHostPort, splitLastColon] at hsplit
    rcases h4 : to4 ip with _ | q
    · -- IPv6 endpoint
      have hlen16 : ip.length = 16 := ip_len16_of_parse_canon hip hcan h4
      have h16 : to16 ip = some ip := to16_of_len16 hlen16
      refine ⟨[5, status, 0] ++ (4 :: ip) ++ b16 n, ?_, ?_⟩
      · simp only [Socks5Response.marshalBinary, hne, hsplit, hip, h4, h16]
        simp
      · show Socks5Response.unmarshalBinary
          (5 :: status :: 0 :: (4 :: (ip ++ b16 n))) = _
        unfold Socks5Response.unmarshalBinary
        simp [takeExact_cons, readAddr_ipv6 ip n hlen16, hcan, hjoin]
    · -- IPv4 endpoint
      have hq4 : q.length = 4 := to4_length h4
      have hipq : ipString q = v4String q := ipString_of_to4 (to4_of_len4 hq4)
      have hipip : ipString ip = v4String q := ipString_of_to4 h4
      refine ⟨[5, status, 0] ++ (1 :: q) ++ b16 n, ?_, ?_⟩
      · simp only [Socks5Response.marshalBinary, hne, hsplit, hip, h4]
        simp
      · show Socks5Response.unmarshalBinary
          (5 :: status :: 0 :: (1 :: (q ++ b16 n))) = _
        unfold Socks5Response.unmarshalBinary
        simp [takeExact_cons, readAddr_ipv4 q n hq4, hipq, ← hipip, hcan, hjoin]

/-- C1 (witness): the two responses of the test suite — `{Failure}` in the
3-octet short form and `{Granted, 127.0.0.1:5544}` with the bound
endpoint — round-trip. -/
theorem socks5Response_roundtrip_canonical_witness :
    (∃ b, Socks5Response.marshalBinary ⟨1, []⟩ = some b
      ∧ Socks5Response.unmarshalBinary b = some ⟨1, []⟩)
    ∧ (∃ b, Socks5Response.marshalBinary ⟨0, gostr "127.0.0.1:5544"⟩ = some b
      ∧ Socks5Response.unmarshalBinary b = some ⟨0, gostr "127.0.0.1:5544"⟩) :=
  ⟨socks5Response_roundtrip_canonical 1 [] (Or.inl rfl),
   socks5Response_roundtrip_canonical 0 (gostr "127.0.0.1:5544")
     (Or.inr ⟨gostr "127.0.0.1", 5544, v4InV6 127 0 0 1,
       by decide, by decide, by decide, by decide⟩)⟩

/-- C8 (counterexample): for the IPv4-mapped IPv6 literal host
`::ffff:1.2.3.4` — an IPv6 literal, for which the claim demands 16
address octets — the encoder emits the 4-octet IPv4 form, so the frame is
10 octets long, not 6 + 16. -/
theorem socks5Request_mapped_ipv6_length :
    Socks5Request.marshalBinary ⟨1, gostr "[::ffff:1.2.3.4]:80"⟩
      = some [5, 1, 0, 1, 1, 2, 3, 4, 0, 80]
    ∧ ([5, 1, 0, 1, 1, 2, 3, 4, 0, 80] : GoStr).length ≠ 6 + 16 := by
  constructor
  · decide
  · decide

/-- C8 (amended): every successfully encoded `Socks5Request` is
`6 + addr-bytes` octets long, where `addr-bytes` is 4 when
`ParseIP(host).To4()` succeeds (IPv4 literals and IPv4-mapped IPv6
literals), 16 for other IP literals, and `1 + N` for a non-IP host of `N`
octets. -/
theorem socks5Request_encoded_length (req : Socks5Request) (b : GoStr)
    (h : Socks5Request.marshalBinary req = some b) :
    ∃ host n, splitHostPort req.Addr = some (host, n)
      ∧ b.length = 6 + (match goParseIP host with
          | some ip => match to4 ip with
            | some _ => 4
            | none => 16
          | none => 1 + host.length) := by
  unfold Socks5Request.marshalBinary at h
  rcases hsplit : splitHostPort req.Addr with _ | ⟨host, n⟩ <;>
    simp only [hsplit] at h
  · cases h
  · refine ⟨host, n, rfl, ?_⟩
    rcases hip : goParseIP host with _ | ip <;> simp only [hip] at h
    · split_ifs at h with hlen
      cases h
      simp [hip, b16_length]
      ring
    · rcases h4 : to4 ip with _ | q <;> simp only [h4] at h
      · rcases h16 : to16 ip with _ | w <;> simp only [h16] at h
        · cases h
        · cases h
          have := to16_length h16
          simp [hip, h4, this, b16]
      · cases h
        have := to4_length h4
        simp [hip, h4, this, b16]

/-- C8 (witness): the instantiations at an IPv4, an IPv6 and an FQDN
destination, with frame lengths 10, 22 and 6 + 1 + 9. -/
theorem socks5Request_encoded_length_witness :
    (∃ host n, splitHostPort (gostr "127.0.0.1:8080") = some (host, n)
      ∧ ([5, 1, 0, 1, 127, 0, 0, 1, 31, 144] : GoStr).length
        = 6 + (match goParseIP host with
            | some ip => match to4 ip with
              | some _ => 4
              | none => 16
            | none => 1 + host.length))
    ∧ (∃ host n, splitHostPort (gostr "localhost:8080") = some (host, n)
      ∧ (([5, 1, 0, 3, 9] ++ gostr "localhost" ++ [31, 144]) : GoStr).length
        = 6 + (match goParseIP host with
            | some ip => match to4 ip with
              | some _ => 4
              | none => 16
            | none => 1 + host.length)) :=
  ⟨socks5Request_encoded_length ⟨1, gostr "127.0.0.1:8080"⟩ _ (by decide),
   socks5Request_encoded_length ⟨1, gostr "localhost:8080"⟩ _ (by decide)⟩

/-- C9 (witness): port `0` and the non-numeric port `ab` make all three
encoders fail; port `80` passes the check. -/
theorem marshal_fails_on_bad_port_witness :
    Socks5Request.marshalBinary ⟨1, gostr "x:0"⟩ = none
    ∧ Socks4Request.marshalBinary ⟨1, gostr "x:ab", []⟩ = none
    ∧ Socks5Response.marshalBinary ⟨0, gostr "x:70000"⟩ = none
    ∧ splitHostPort (gostr "x:80") = some (gostr "x", 80) :=
  ⟨((marshal_fails_on_bad_port (gostr "x:0") (gostr "x") (gostr "0")
      (by decide)).1 (Or.inr (Or.inl (by decide)))).2.2.1 1,
   ((marshal_fails_on_bad_port (gostr "x:ab") (gostr "x") (gostr "ab")
      (by decide)).1 (Or.inl (by decide))).2.1 1 [],
   ((marshal_fails_on_bad_port (gostr "x:70000") (gostr "x") (gostr "70000")
      (by decide)).1 (Or.inr (Or.inr ⟨70000, by decide, by decide⟩))).2.2.2 0,
   (marshal_fails_on_bad_port (gostr "x:80") (gostr "x") (gostr "80")
      (by decide)).2 80 (by decide) (by decide) (by decide)⟩

end Socks
